import Mathlib

/-!
Shallow embedding of `src/SelectionElement.js` (keithclark/selection-element).

The component is a container whose direct children are selectable items.
Selection state is stored as the presence of a marker attribute
(`data-selected`) on child elements.  We model elements as trees carrying an
attribute-presence list (attribute values are never read by the component,
only presence), and the control as its ordered list of direct children plus
the `multiple` mode flag.  Geometry (`getBoundingClientRect`) is passed in as
rectangle snapshots, mirroring the source's on-demand queries.
-/

namespace SelectionElement

/-- A DOM rectangle, by its four edges (DOMRect left/top/right/bottom).
Shifting `x`/`y` moves left/right resp. top/bottom together, exactly as
mutating `DOMRect.x` / `DOMRect.y` does. -/
structure Rect where
  left : Int
  top : Int
  right : Int
  bottom : Int

instance : Inhabited Rect := ⟨⟨0, 0, 0, 0⟩⟩

/-- `DOMRect.fromRect` followed by `x += dx; y += dy` in the source. -/
def shiftRect (r : Rect) (dx dy : Int) : Rect :=
  ⟨r.left + dx, r.top + dy, r.right + dx, r.bottom + dy⟩

/-- `#rectContains(a, b)`: b.left >= a.left && b.right <= a.right &&
b.top >= a.top && b.bottom <= a.bottom. -/
def rectContains (a b : Rect) : Bool :=
  decide (a.left ≤ b.left) && decide (b.right ≤ a.right) &&
  decide (a.top ≤ b.top) && decide (b.bottom ≤ a.bottom)

/-- The ascending for-loop `for (let c = start; c < n; c++) if (p c) return c`
of `#getNextNonvisibleChildIndex`: first index in `[c, n)` satisfying `p`. -/
def scanUpFrom (p : Nat → Bool) (n c : Nat) : Option Nat :=
  if h : c < n then
    if p c then some c else scanUpFrom p n (c + 1)
  else none
termination_by n - c
decreasing_by omega

/-- The descending for-loop `for (let c = s - 1; c >= 0; c--) if (p c) return c`
of `#getPreviousNonvisibleChildIndex`: called with `s`, tests `s-1, ..., 0`. -/
def scanDownFrom (p : Nat → Bool) : Nat → Option Nat
  | 0 => none
  | c + 1 => if p c then some c else scanDownFrom p c

/-- The `pageBounds` of `#getNextNonvisibleChildIndex`: the container
rectangle shifted forward by `selectionBounds.top - containerBounds.top`
vertically and `selectionBounds.left - containerBounds.left` horizontally. -/
def forwardWindow (container selectionBounds : Rect) : Rect :=
  shiftRect container
    (selectionBounds.left - container.left)
    (selectionBounds.top - container.top)

/-- The `pageBounds` of `#getPreviousNonvisibleChildIndex`: the container
rectangle shifted backward by `containerBounds.bottom - selectionBounds.bottom`
vertically and `containerBounds.right - selectionBounds.right` horizontally. -/
def backwardWindow (container selectionBounds : Rect) : Rect :=
  shiftRect container
    (selectionBounds.right - container.right)
    (selectionBounds.bottom - container.bottom)

/-- `#getNextNonvisibleChildIndex`, as a pure function of the container
rectangle, the children's rectangles and the current `selectedIndex`.
A genuine `selectedIndex` other than −1 is always in range; the `none`
branch of the inner match is unreachable in those conditions. -/
def getNextNonvisibleChildIndex (container : Rect) (rects : List Rect)
    (selectedIndex : Int) : Int :=
  if selectedIndex = -1 then -1
  else
    match rects[selectedIndex.toNat]? with
    | none => -1
    | some selectionBounds =>
      let pageBounds := forwardWindow container selectionBounds
      match scanUpFrom (fun c => !(rectContains pageBounds (rects.getD c default)))
          rects.length (selectedIndex.toNat + 1) with
      | some c => (c : Int)
      | none => (rects.length : Int) - 1

/-- `#getPreviousNonvisibleChildIndex`, as a pure function. -/
def getPreviousNonvisibleChildIndex (container : Rect) (rects : List Rect)
    (selectedIndex : Int) : Int :=
  if selectedIndex = -1 then -1
  else
    match rects[selectedIndex.toNat]? with
    | none => -1
    | some selectionBounds =>
      let pageBounds := backwardWindow container selectionBounds
      match scanDownFrom (fun c => !(rectContains pageBounds (rects.getD c default)))
          selectedIndex.toNat with
      | some c => (c : Int)
      | none => 0

/-- A DOM element: its present attribute names and its child elements.
Attribute values are never read by the component, so only presence is kept. -/
inductive Elem where
  | node (attrs : List String) (kids : List Elem)

instance : Inhabited Elem := ⟨.node [] []⟩

def Elem.attrs : Elem → List String
  | .node a _ => a

def Elem.kids : Elem → List Elem
  | .node _ k => k

/-- `static get selectedAttributeName() { return 'data-selected'; }` -/
def selectedAttributeName : String := "data-selected"

/-- `element.hasAttribute(name)`. -/
def hasAttr (e : Elem) (name : String) : Bool :=
  e.attrs.contains name

/-- `element.setAttribute(name, '')` — presence-wise: add if absent. -/
def setAttr (e : Elem) (name : String) : Elem :=
  if e.attrs.contains name then e else .node (name :: e.attrs) e.kids

/-- `element.removeAttribute(name)`. -/
def removeAttr (e : Elem) (name : String) : Elem :=
  .node (e.attrs.filter (fun a => a ≠ name)) e.kids

/-- `#isSelected(element)`. -/
def isSelected (e : Elem) : Bool :=
  hasAttr e selectedAttributeName

/-- `#addToSelection(element)`. -/
def addToSelection (e : Elem) : Elem :=
  setAttr e selectedAttributeName

/-- `#removeFromSelection(element)`. -/
def removeFromSelection (e : Elem) : Elem :=
  removeAttr e selectedAttributeName

/-- `#clearSelection()`: `selectedChildren.forEach(removeFromSelection)` —
every selected direct child is unmarked in place, unselected children are
untouched. -/
def clearSelection (children : List Elem) : List Elem :=
  children.map (fun c => if isSelected c then removeFromSelection c else c)

/-- The index-scanning loop of the `selectedIndex` getter: first index whose
child is selected. -/
def firstSelected : List Elem → Option Nat
  | [] => none
  | e :: es => if isSelected e then some 0 else (firstSelected es).map (· + 1)

/-- `get selectedIndex()`: first selected index, or −1. -/
def selectedIndexOf (children : List Elem) : Int :=
  match firstSelected children with
  | some i => (i : Int)
  | none => -1

/-- `selectedChildren.length`: how many direct children are selected. -/
def countSelected (children : List Elem) : Nat :=
  (children.filter isSelected).length

/-- The control: its ordered direct children and the
`#allowMultipeSelections` flag. -/
structure Ctrl where
  children : List Elem
  multiple : Bool

/-- In-place mutation of the element at index `i` of a live child list. -/
def modifyAt (l : List Elem) (i : Nat) (f : Elem → Elem) : List Elem :=
  match l, i with
  | [], _ => []
  | x :: xs, 0 => f x :: xs
  | x :: xs, n + 1 => x :: modifyAt xs n f

/-- Look up the descendant of `e` addressed by a path of child indices. -/
def getNodeIn (e : Elem) : List Nat → Option Elem
  | [] => some e
  | i :: rest =>
    match e.kids[i]? with
    | some k => getNodeIn k rest
    | none => none

/-- Look up the node addressed by a (non-empty) path below the control:
`i :: rest` is the descendant of direct child `i` addressed by `rest`. -/
def getNodeAt (es : List Elem) : List Nat → Option Elem
  | [] => none
  | i :: rest =>
    match es[i]? with
    | some e => getNodeIn e rest
    | none => none

/-- In-place mutation of the descendant of `e` addressed by a path. -/
def updateNodeIn (e : Elem) : List Nat → (Elem → Elem) → Elem
  | [], f => f e
  | i :: rest, f => .node e.attrs (modifyAt e.kids i (fun k => updateNodeIn k rest f))

/-- In-place mutation of the node addressed by a non-empty path below the
control. -/
def updateChildAt (es : List Elem) : List Nat → (Elem → Elem) → List Elem
  | [], _ => es
  | i :: rest, f => modifyAt es i (fun e => updateNodeIn e rest f)

/-- `set selectedIndex(value)`: clear all, then mark `children[value]` iff
`value >= 0 && value < children.length`. -/
def setSelectedIndex (c : Ctrl) (value : Int) : Ctrl :=
  let ch := clearSelection c.children
  if 0 ≤ value ∧ value < (ch.length : Int) then
    { c with children := modifyAt ch value.toNat addToSelection }
  else
    { c with children := ch }

/-- The value assigned to `selectedChild`: either a reference to the direct
child at index `i` (reference equality `===` holds exactly at index `i`,
since distinct children are distinct DOM objects), or any other value
(`null`, a non-child element, a grandchild, ...) which `===`-matches no
direct child. -/
inductive ChildRef where
  | child (i : Nat)
  | other

/-- `set selectedChild(element)`: clear all, then scan the children for an
`===` match and mark it. -/
def setSelectedChild (c : Ctrl) (r : ChildRef) : Ctrl :=
  let ch := clearSelection c.children
  match r with
  | .child i =>
    if i < ch.length then { c with children := modifyAt ch i addToSelection }
    else { c with children := ch }
  | .other => { c with children := ch }

/-- `attributeChangedCallback('multiple', _, newValue)`: when the attribute is
removed (`newValue === null`), collapse the selection to the first selected
child, then store the flag.  `present` is `newValue !== null`. -/
def setMultipleAttr (c : Ctrl) (present : Bool) : Ctrl :=
  if present = false then
    let si := selectedIndexOf c.children
    if si > -1 then
      { children := modifyAt (clearSelection c.children) si.toNat addToSelection,
        multiple := false }
    else
      { children := c.children, multiple := false }
  else
    { c with multiple := true }

/-- The keys the `keydown` handler distinguishes. -/
inductive Key where
  | home
  | endKey
  | pageUp
  | pageDown
  | arrowRight
  | arrowDown
  | arrowLeft
  | arrowUp
  | other

/-- The `newSelectionIndex` computed by the if/else chain of the key handler;
`none` for an unclaimed key (the handler returns before `preventDefault`). -/
def computeNewIndex (c : Ctrl) (container : Rect) (rects : List Rect)
    (k : Key) : Option Int :=
  let cur := selectedIndexOf c.children
  match k with
  | .home => some 0
  | .endKey => some ((c.children.length : Int) - 1)
  | .pageUp =>
    let i := getPreviousNonvisibleChildIndex container rects cur
    some (if i > -1 then i else cur)
  | .pageDown =>
    let i := getNextNonvisibleChildIndex container rects cur
    some (if i > -1 then i else cur)
  | .arrowRight => some (if cur < (c.children.length : Int) - 1 then cur + 1 else cur)
  | .arrowDown => some (if cur < (c.children.length : Int) - 1 then cur + 1 else cur)
  | .arrowLeft => some (if cur > 0 then cur - 1 else cur)
  | .arrowUp => some (if cur > 0 then cur - 1 else cur)
  | .other => none

/-- The `keydown` handler installed on focus.  Returns the new control state
and the number of `#notifySelectionChange()` calls (each such call dispatches
one `change` and one `input` event).  `container`/`rects` are the geometry
snapshots `getBoundingClientRect` would return during this key press.
Scrolling (`#scrollSelectionIntoView`) is presentation-only and not part of
the state. -/
def keyHandler (c : Ctrl) (container : Rect) (rects : List Rect) (k : Key) :
    Ctrl × Nat :=
  match computeNewIndex c container rects k with
  | none => (c, 0)
  | some n =>
    if n ≠ selectedIndexOf c.children then (setSelectedIndex c n, 1) else (c, 0)

/-- `if (target.parentElement !== this) { target = target.parentElement; }`
on a press target addressed by its path of child indices below the control
(`[]` would be the control itself, `[i]` a direct child, `[i, j]` a
grandchild, ...). -/
def resolveTargetPath (p : List Nat) : List Nat :=
  if p.length ≠ 1 then p.dropLast else p

/-- Result of a pointer press: new state plus number of
`#notifySelectionChange()` calls. -/
structure PressResult where
  ctrl : Ctrl
  notifications : Nat

/-- `#handlePointerDown(event)`.  `path` addresses `event.target` below the
control (`[]` means `target === this`). -/
def handlePointerDown (c : Ctrl) (path : List Nat) (shiftKey : Bool)
    (defaultPrevented : Bool) : PressResult :=
  if path = [] then ⟨c, 0⟩
  else
    let target := resolveTargetPath path
    if defaultPrevented then ⟨c, 0⟩
    else
      match getNodeAt c.children target with
      | none => ⟨c, 0⟩
      | some t =>
        if c.multiple && shiftKey then
          if isSelected t then
            ⟨{ c with children := updateChildAt c.children target removeFromSelection }, 1⟩
          else
            ⟨{ c with children := updateChildAt c.children target addToSelection }, 1⟩
        else
          if isSelected t then ⟨c, 0⟩
          else
            ⟨{ c with children := updateChildAt (clearSelection c.children) target addToSelection }, 1⟩

/-- The `selectedIndex` setter paired with the number of events it
dispatches: its body contains no `dispatchEvent` call. -/
def setSelectedIndexE (c : Ctrl) (v : Int) : Ctrl × Nat :=
  (setSelectedIndex c v, 0)

/-- The `selectedChild` setter paired with the number of events it
dispatches: its body contains no `dispatchEvent` call. -/
def setSelectedChildE (c : Ctrl) (r : ChildRef) : Ctrl × Nat :=
  (setSelectedChild c r, 0)

/-- A selection-changing operation of the public surface. -/
inductive Op where
  | setIndex (v : Int)
  | setChild (r : ChildRef)
  | keyPress (container : Rect) (rects : List Rect) (k : Key)
  | press (path : List Nat) (shift : Bool) (dp : Bool)

/-- State reached after one operation. -/
def applyOp (c : Ctrl) : Op → Ctrl
  | .setIndex v => setSelectedIndex c v
  | .setChild r => setSelectedChild c r
  | .keyPress container rects k => (keyHandler c container rects k).1
  | .press p s d => (handlePointerDown c p s d).ctrl

/-- State reached after a sequence of operations. -/
def runOps (c : Ctrl) (ops : List Op) : Ctrl :=
  ops.foldl applyOp c

mutual

/-- Erase the selection marker everywhere in a subtree, keeping every other
attribute and the whole tree structure. -/
def stripMarkerE : Elem → Elem
  | .node attrs kids =>
    .node (attrs.filter (fun a => a ≠ selectedAttributeName)) (stripMarkerL kids)

/-- `stripMarkerE` on each element of a list. -/
def stripMarkerL : List Elem → List Elem
  | [] => []
  | e :: es => stripMarkerE e :: stripMarkerL es

end

/-! ### Basic lemmas about the selection marker -/

theorem hasAttr_iff (e : Elem) (n : String) : hasAttr e n = true ↔ n ∈ e.attrs := by
  simp [hasAttr, List.contains, List.elem_iff]

theorem isSelected_removeFromSelection (e : Elem) :
    isSelected (removeFromSelection e) = false := by
  rw [Bool.eq_false_iff]
  intro h
  rw [isSelected, hasAttr_iff] at h
  simp only [removeFromSelection, removeAttr, Elem.attrs, List.mem_filter] at h
  rcases h with ⟨-, h⟩
  simp at h

theorem isSelected_addToSelection (e : Elem) :
    isSelected (addToSelection e) = true := by
  unfold addToSelection setAttr
  by_cases h : e.attrs.contains selectedAttributeName = true
  · rw [if_pos h]
    exact h
  · rw [if_neg h]
    rw [isSelected, hasAttr_iff]
    exact List.mem_cons_self _ _

theorem length_clearSelection (l : List Elem) :
    (clearSelection l).length = l.length := by
  simp [clearSelection]

theorem clearSelection_not_selected (l : List Elem) :
    ∀ e ∈ clearSelection l, isSelected e = false := by
  intro e he
  simp only [clearSelection, List.mem_map] at he
  rcases he with ⟨x, -, hx⟩
  by_cases hsel : isSelected x = true
  · rw [← hx, if_pos hsel]
    exact isSelected_removeFromSelection x
  · rw [← hx, if_neg hsel]
    exact Bool.eq_false_iff.mpr hsel

theorem length_modifyAt (l : List Elem) (i : Nat) (f : Elem → Elem) :
    (modifyAt l i f).length = l.length := by
  induction l generalizing i with
  | nil => rfl
  | cons x xs ih =>
    cases i with
    | zero => rfl
    | succ n => simpa [modifyAt] using ih n

theorem getD_modifyAt_ne (l : List Elem) (i j : Nat) (f : Elem → Elem) (d : Elem)
    (h : j ≠ i) : (modifyAt l i f).getD j d = l.getD j d := by
  induction l generalizing i j with
  | nil => rfl
  | cons x xs ih =>
    cases i with
    | zero =>
      cases j with
      | zero => exact absurd rfl h
      | succ m => rfl
    | succ n =>
      cases j with
      | zero => rfl
      | succ m =>
        simpa [modifyAt, List.getD] using ih n m (fun hc => h (by rw [hc]))

theorem getD_modifyAt_eq (l : List Elem) (i : Nat) (f : Elem → Elem) (d : Elem)
    (h : i < l.length) : (modifyAt l i f).getD i d = f (l.getD i d) := by
  induction l generalizing i with
  | nil => simp at h
  | cons x xs ih =>
    cases i with
    | zero => rfl
    | succ n =>
      simp only [List.length_cons, Nat.succ_lt_succ_iff] at h
      simpa [modifyAt, List.getD] using ih n h

/-! ### Lemmas about the `selectedIndex` getter scan -/

theorem firstSelected_eq_none (l : List Elem)
    (h : ∀ e ∈ l, isSelected e = false) : firstSelected l = none := by
  induction l with
  | nil => rfl
  | cons x xs ih =>
    have hx : isSelected x = false := h x (List.mem_cons_self _ _)
    rw [firstSelected, if_neg (by simp [hx]), ih (fun e he => h e (List.mem_cons_of_mem _ he))]
    rfl

theorem firstSelected_lt (l : List Elem) (i : Nat) (h : firstSelected l = some i) :
    i < l.length := by
  induction l generalizing i with
  | nil => simp [firstSelected] at h
  | cons x xs ih =>
    rw [firstSelected] at h
    by_cases hx : isSelected x = true
    · rw [if_pos hx] at h
      cases h
      simp
    · rw [if_neg hx] at h
      cases hfs : firstSelected xs with
      | none => rw [hfs] at h; simp at h
      | some j =>
        rw [hfs] at h
        simp only [Option.map_some'] at h
        cases h
        have := ih j hfs
        simp only [List.length_cons]
        omega

theorem firstSelected_sel (l : List Elem) (i : Nat) (d : Elem)
    (h : firstSelected l = some i) :
    isSelected (l.getD i d) = true ∧ ∀ j, j < i → isSelected (l.getD j d) = false := by
  induction l generalizing i with
  | nil => simp [firstSelected] at h
  | cons x xs ih =>
    rw [firstSelected] at h
    by_cases hx : isSelected x = true
    · rw [if_pos hx] at h
      cases h
      exact ⟨hx, fun j hj => absurd hj (Nat.not_lt_zero j)⟩
    · rw [if_neg hx] at h
      cases hfs : firstSelected xs with
      | none => rw [hfs] at h; simp at h
      | some k =>
        rw [hfs] at h
        simp only [Option.map_some'] at h
        cases h
        rcases ih k hfs with ⟨h1, h2⟩
        refine ⟨h1, fun j hj => ?_⟩
        cases j with
        | zero => exact Bool.eq_false_iff.mpr hx
        | succ m => exact h2 m (Nat.succ_lt_succ_iff.mp hj)

theorem firstSelected_modifyAt_add (l : List Elem) (i : Nat)
    (hall : ∀ e ∈ l, isSelected e = false) (hi : i < l.length) :
    firstSelected (modifyAt l i addToSelection) = some i := by
  induction l generalizing i with
  | nil => simp at hi
  | cons x xs ih =>
    cases i with
    | zero =>
      rw [modifyAt, firstSelected, if_pos (isSelected_addToSelection x)]
    | succ n =>
      have hx : isSelected x = false := hall x (List.mem_cons_self _ _)
      rw [modifyAt, firstSelected, if_neg (by simp [hx]),
        ih n (fun e he => hall e (List.mem_cons_of_mem _ he))
          (by simpa [Nat.succ_lt_succ_iff] using hi)]
      rfl

theorem selectedIndexOf_cases (l : List Elem) :
    selectedIndexOf l = -1 ∨
    (0 ≤ selectedIndexOf l ∧ selectedIndexOf l < (l.length : Int)) := by
  cases h : firstSelected l with
  | none =>
    left
    simp only [selectedIndexOf, h]
  | some i =>
    right
    simp only [selectedIndexOf, h]
    refine ⟨Int.natCast_nonneg i, ?_⟩
    exact_mod_cast firstSelected_lt l i h

theorem selectedIndexOf_lt_of_nonneg (l : List Elem)
    (h : 0 ≤ selectedIndexOf l) : selectedIndexOf l < (l.length : Int) := by
  rcases selectedIndexOf_cases l with h1 | h1
  · omega
  · exact h1.2

theorem selectedIndexOf_clearSelection (l : List Elem) :
    selectedIndexOf (clearSelection l) = -1 := by
  rw [selectedIndexOf, firstSelected_eq_none _ (clearSelection_not_selected l)]

theorem setSelectedIndex_selectedIndexOf (c : Ctrl) (v : Int)
    (h0 : 0 ≤ v) (hv : v < (c.children.length : Int)) :
    selectedIndexOf (setSelectedIndex c v).children = v := by
  unfold setSelectedIndex
  rw [if_pos (by rw [length_clearSelection]; exact ⟨h0, hv⟩)]
  have hlt : v.toNat < (clearSelection c.children).length := by
    rw [length_clearSelection]
    omega
  unfold selectedIndexOf
  rw [firstSelected_modifyAt_add (clearSelection c.children) v.toNat
    (clearSelection_not_selected c.children) hlt]
  show ((v.toNat : Nat) : Int) = v
  omega

theorem setSelectedIndex_children_of_not (c : Ctrl) (v : Int)
    (h : ¬(0 ≤ v ∧ v < (c.children.length : Int))) :
    (setSelectedIndex c v).children = clearSelection c.children := by
  unfold setSelectedIndex
  rw [if_neg (by rw [length_clearSelection]; exact h)]

theorem setSelectedIndex_multiple (c : Ctrl) (v : Int) :
    (setSelectedIndex c v).multiple = c.multiple := by
  unfold setSelectedIndex
  by_cases h : 0 ≤ v ∧ v < ((clearSelection c.children).length : Int)
  · rw [if_pos h]
  · rw [if_neg h]

/-! ### Lemmas about selection counting -/

theorem countSelected_clearSelection (l : List Elem) :
    countSelected (clearSelection l) = 0 := by
  rw [countSelected, List.length_eq_zero, List.filter_eq_nil_iff]
  intro e he
  simp [clearSelection_not_selected l e he]

theorem countSelected_modifyAt_le (l : List Elem) (i : Nat) (f : Elem → Elem) :
    countSelected (modifyAt l i f) ≤ countSelected l + 1 := by
  induction l generalizing i with
  | nil => simp [modifyAt, countSelected]
  | cons x xs ih =>
    cases i with
    | zero =>
      simp only [modifyAt, countSelected, List.filter]
      cases isSelected (f x) <;> cases isSelected x <;>
        simp [countSelected] at * <;> omega
    | succ n =>
      simp only [modifyAt, countSelected, List.filter]
      cases isSelected x <;> simpa [countSelected] using ih n

/-! ### Lemmas about the page-boundary scan loops -/

theorem scanUpFrom_eq_some (p : Nat → Bool) (n t : Nat) (ht : t < n)
    (hp : p t = true) :
    ∀ d c, t - c = d → c ≤ t → (∀ u, c ≤ u → u < t → p u = false) →
      scanUpFrom p n c = some t := by
  intro d
  induction d with
  | zero =>
    intro c hd hc hmin
    have hct : c = t := by omega
    subst hct
    rw [scanUpFrom, dif_pos ht, if_pos hp]
  | succ d ih =>
    intro c hd hc hmin
    have hct : c < t := by omega
    have hcn : c < n := by omega
    rw [scanUpFrom, dif_pos hcn, if_neg (by simp [hmin c le_rfl hct])]
    exact ih (c + 1) (by omega) (by omega) (fun u hu1 hu2 => hmin u (by omega) hu2)

theorem scanUpFrom_eq_none (p : Nat → Bool) (n : Nat) :
    ∀ d c, n - c = d → (∀ u, c ≤ u → u < n → p u = false) →
      scanUpFrom p n c = none := by
  intro d
  induction d with
  | zero =>
    intro c hd hall
    rw [scanUpFrom, dif_neg (by omega)]
  | succ d ih =>
    intro c hd hall
    have hcn : c < n := by omega
    rw [scanUpFrom, dif_pos hcn, if_neg (by simp [hall c le_rfl hcn])]
    exact ih (c + 1) (by omega) (fun u hu1 hu2 => hall u (by omega) hu2)

theorem scanDownFrom_eq_some (p : Nat → Bool) (t : Nat) (hp : p t = true) :
    ∀ s, t < s → (∀ u, t < u → u < s → p u = false) →
      scanDownFrom p s = some t := by
  intro s
  induction s with
  | zero => omega
  | succ c ih =>
    intro hts hmin
    by_cases hct : t = c
    · subst hct
      rw [scanDownFrom, if_pos hp]
    · have h1 : t < c := by omega
      rw [scanDownFrom, if_neg (by simp [hmin c h1 (by omega)])]
      exact ih h1 (fun u hu1 hu2 => hmin u hu1 (by omega))

theorem scanDownFrom_eq_none (p : Nat → Bool) :
    ∀ s, (∀ u, u < s → p u = false) → scanDownFrom p s = none := by
  intro s
  induction s with
  | zero => intro; rfl
  | succ c ih =>
    intro hall
    rw [scanDownFrom, if_neg (by simp [hall c (by omega)])]
    exact ih (fun u hu => hall u (by omega))

/-! ### Shape lemmas for the event handlers -/

theorem keyHandler_shape (c : Ctrl) (container : Rect) (rects : List Rect)
    (k : Key) :
    keyHandler c container rects k = (c, 0) ∨
    ∃ n, keyHandler c container rects k = (setSelectedIndex c n, 1) := by
  cases h2 : computeNewIndex c container rects k with
  | none =>
    left
    unfold keyHandler
    rw [h2]
  | some n =>
    unfold keyHandler
    rw [h2]
    dsimp only
    by_cases hn : n ≠ selectedIndexOf c.children
    · exact Or.inr ⟨n, by rw [if_pos hn]⟩
    · exact Or.inl (by rw [if_neg hn])

theorem keyHandler_of_zero (c : Ctrl) (container : Rect) (rects : List Rect)
    (k : Key) (h : (keyHandler c container rects k).2 = 0) :
    (keyHandler c container rects k).1 = c := by
  rcases keyHandler_shape c container rects k with h1 | ⟨n, h1⟩
  · rw [h1]
  · rw [h1] at h
    simp at h

theorem resolveTargetPath_cons (a : Nat) (as : List Nat) :
    ∃ rest, resolveTargetPath (a :: as) = a :: rest := by
  cases as with
  | nil => exact ⟨[], by rw [resolveTargetPath, if_neg (by simp)]⟩
  | cons b bs =>
    refine ⟨(b :: bs).dropLast, ?_⟩
    rw [resolveTargetPath, if_pos (by simp), List.dropLast_cons₂]

theorem handlePointerDown_shape (c : Ctrl) (p : List Nat) (s d : Bool) :
    (handlePointerDown c p s d = ⟨c, 0⟩) ∨
    (∃ i rest,
      (handlePointerDown c p s d).notifications = 1 ∧
      (handlePointerDown c p s d).ctrl.multiple = c.multiple ∧
      (((c.multiple && s) = true ∧
        ((handlePointerDown c p s d).ctrl.children
            = modifyAt c.children i (fun e => updateNodeIn e rest removeFromSelection) ∨
         (handlePointerDown c p s d).ctrl.children
            = modifyAt c.children i (fun e => updateNodeIn e rest addToSelection))) ∨
       ((c.multiple && s) = false ∧
        (handlePointerDown c p s d).ctrl.children
            = modifyAt (clearSelection c.children) i (fun e => updateNodeIn e rest addToSelection)))) := by
  cases p with
  | nil => exact Or.inl rfl
  | cons a as =>
    obtain ⟨rest, hres⟩ := resolveTargetPath_cons a as
    unfold handlePointerDown
    rw [if_neg (by simp)]
    simp only [hres]
    by_cases hd : d = true
    · rw [if_pos hd]
      exact Or.inl rfl
    · rw [if_neg hd]
      cases hg : getNodeAt c.children (a :: rest) with
      | none => exact Or.inl rfl
      | some t =>
        dsimp only
        by_cases hm : (c.multiple && s) = true
        · rw [if_pos hm]
          by_cases hsel : isSelected t = true
          · rw [if_pos hsel]
            exact Or.inr ⟨a, rest, rfl, rfl, Or.inl ⟨hm, Or.inl rfl⟩⟩
          · rw [if_neg hsel]
            exact Or.inr ⟨a, rest, rfl, rfl, Or.inl ⟨hm, Or.inr rfl⟩⟩
        · rw [if_neg hm]
          by_cases hsel : isSelected t = true
          · rw [if_pos hsel]
            exact Or.inl rfl
          · rw [if_neg hsel]
            exact Or.inr ⟨a, rest, rfl, rfl,
              Or.inr ⟨Bool.eq_false_iff.mpr hm, rfl⟩⟩

theorem handlePointerDown_of_zero (c : Ctrl) (p : List Nat) (s d : Bool)
    (h : (handlePointerDown c p s d).notifications = 0) :
    (handlePointerDown c p s d).ctrl = c := by
  rcases handlePointerDown_shape c p s d with h1 | ⟨i, rest, h1, -⟩
  · rw [h1]
  · rw [h1] at h
    simp at h

/-! ### Frame lemmas: operations touch only the selection marker -/

theorem stripMarkerL_nil : stripMarkerL [] = [] := by
  rw [stripMarkerL]

theorem stripMarkerL_cons (e : Elem) (es : List Elem) :
    stripMarkerL (e :: es) = stripMarkerE e :: stripMarkerL es := by
  rw [stripMarkerL]

theorem stripMarkerE_node (a : List String) (k : List Elem) :
    stripMarkerE (.node a k)
      = .node (a.filter (fun x => x ≠ selectedAttributeName)) (stripMarkerL k) := by
  rw [stripMarkerE]

theorem length_stripMarkerL (l : List Elem) :
    (stripMarkerL l).length = l.length := by
  induction l with
  | nil => rfl
  | cons e es ih => rw [stripMarkerL_cons, List.length_cons, List.length_cons, ih]

theorem stripMarkerE_removeFromSelection (e : Elem) :
    stripMarkerE (removeFromSelection e) = stripMarkerE e := by
  cases e with
  | node a k =>
    show stripMarkerE (.node (a.filter (fun x => x ≠ selectedAttributeName)) k)
        = stripMarkerE (.node a k)
    rw [stripMarkerE_node, stripMarkerE_node, List.filter_filter]
    simp

theorem stripMarkerE_addToSelection (e : Elem) :
    stripMarkerE (addToSelection e) = stripMarkerE e := by
  cases e with
  | node a k =>
    unfold addToSelection setAttr
    by_cases h : (Elem.node a k).attrs.contains selectedAttributeName = true
    · rw [if_pos h]
    · rw [if_neg h]
      show stripMarkerE (.node (selectedAttributeName :: a) k) = stripMarkerE (.node a k)
      rw [stripMarkerE_node, stripMarkerE_node]
      simp

theorem stripMarkerL_modifyAt (l : List Elem) (i : Nat) (f : Elem → Elem)
    (hf : ∀ e, stripMarkerE (f e) = stripMarkerE e) :
    stripMarkerL (modifyAt l i f) = stripMarkerL l := by
  induction l generalizing i with
  | nil => rfl
  | cons x xs ih =>
    cases i with
    | zero => rw [modifyAt, stripMarkerL_cons, stripMarkerL_cons, hf x]
    | succ n => rw [modifyAt, stripMarkerL_cons, stripMarkerL_cons, ih n]

theorem stripMarkerL_clearSelection (l : List Elem) :
    stripMarkerL (clearSelection l) = stripMarkerL l := by
  induction l with
  | nil => rfl
  | cons x xs ih =>
    show stripMarkerL ((if isSelected x then removeFromSelection x else x) :: clearSelection xs)
        = stripMarkerL (x :: xs)
    rw [stripMarkerL_cons, stripMarkerL_cons, ih]
    by_cases h : isSelected x = true
    · rw [if_pos h, stripMarkerE_removeFromSelection]
    · rw [if_neg h]

theorem stripMarkerE_updateNodeIn (p : List Nat) (f : Elem → Elem)
    (hf : ∀ x, stripMarkerE (f x) = stripMarkerE x) :
    ∀ e, stripMarkerE (updateNodeIn e p f) = stripMarkerE e := by
  induction p with
  | nil => exact hf
  | cons i rest ih =>
    intro e
    cases e with
    | node a k =>
      show stripMarkerE (.node a (modifyAt k i (fun x => updateNodeIn x rest f)))
          = stripMarkerE (.node a k)
      rw [stripMarkerE_node, stripMarkerE_node, stripMarkerL_modifyAt k i _ ih]

theorem stripMarkerL_updateChildAt (l : List Elem) (p : List Nat)
    (f : Elem → Elem) (hf : ∀ x, stripMarkerE (f x) = stripMarkerE x) :
    stripMarkerL (updateChildAt l p f) = stripMarkerL l := by
  cases p with
  | nil => rfl
  | cons i rest =>
    exact stripMarkerL_modifyAt l i _ (stripMarkerE_updateNodeIn rest f hf)

theorem stripMarkerL_setSelectedIndex (c : Ctrl) (v : Int) :
    stripMarkerL (setSelectedIndex c v).children = stripMarkerL c.children := by
  unfold setSelectedIndex
  by_cases h : 0 ≤ v ∧ v < ((clearSelection c.children).length : Int)
  · rw [if_pos h]
    show stripMarkerL (modifyAt (clearSelection c.children) v.toNat addToSelection)
        = stripMarkerL c.children
    rw [stripMarkerL_modifyAt _ _ _ stripMarkerE_addToSelection,
      stripMarkerL_clearSelection]
  · rw [if_neg h]
    exact stripMarkerL_clearSelection c.children

theorem stripMarkerL_setSelectedChild (c : Ctrl) (r : ChildRef) :
    stripMarkerL (setSelectedChild c r).children = stripMarkerL c.children := by
  unfold setSelectedChild
  cases r with
  | child i =>
    dsimp only
    by_cases h : i < (clearSelection c.children).length
    · rw [if_pos h]
      show stripMarkerL (modifyAt (clearSelection c.children) i addToSelection)
          = stripMarkerL c.children
      rw [stripMarkerL_modifyAt _ _ _ stripMarkerE_addToSelection,
        stripMarkerL_clearSelection]
    · rw [if_neg h]
      exact stripMarkerL_clearSelection c.children
  | other => exact stripMarkerL_clearSelection c.children

theorem stripMarkerL_setMultipleAttr (c : Ctrl) (b : Bool) :
    stripMarkerL (setMultipleAttr c b).children = stripMarkerL c.children := by
  unfold setMultipleAttr
  by_cases hb : b = false
  · rw [if_pos hb]
    by_cases hsi : selectedIndexOf c.children > -1
    · rw [if_pos hsi]
      show stripMarkerL (modifyAt (clearSelection c.children)
          (selectedIndexOf c.children).toNat addToSelection) = stripMarkerL c.children
      rw [stripMarkerL_modifyAt _ _ _ stripMarkerE_addToSelection,
        stripMarkerL_clearSelection]
    · rw [if_neg hsi]
  · rw [if_neg hb]

theorem stripMarkerL_applyOp (c : Ctrl) (op : Op) :
    stripMarkerL (applyOp c op).children = stripMarkerL c.children := by
  cases op with
  | setIndex v => exact stripMarkerL_setSelectedIndex c v
  | setChild r => exact stripMarkerL_setSelectedChild c r
  | keyPress container rects k =>
    show stripMarkerL (keyHandler c container rects k).1.children = stripMarkerL c.children
    rcases keyHandler_shape c container rects k with h1 | ⟨n, h1⟩
    · rw [h1]
    · rw [h1]
      exact stripMarkerL_setSelectedIndex c n
  | press p s d =>
    show stripMarkerL (handlePointerDown c p s d).ctrl.children = stripMarkerL c.children
    rcases handlePointerDown_shape c p s d with h1 | ⟨i, rest, -, -, hcase⟩
    · rw [h1]
    · rcases hcase with ⟨-, h2 | h2⟩ | ⟨-, h2⟩
      · rw [h2]
        exact stripMarkerL_modifyAt _ _ _
          (stripMarkerE_updateNodeIn rest _ stripMarkerE_removeFromSelection)
      · rw [h2]
        exact stripMarkerL_modifyAt _ _ _
          (stripMarkerE_updateNodeIn rest _ stripMarkerE_addToSelection)
      · rw [h2, stripMarkerL_modifyAt _ _ _
          (stripMarkerE_updateNodeIn rest _ stripMarkerE_addToSelection),
          stripMarkerL_clearSelection]

/-! ### Further helper lemmas for the claim theorems -/

theorem getNodeAt_singleton (l : List Elem) (i : Nat) (h : i < l.length) :
    getNodeAt l [i] = some (l.getD i default) := by
  unfold getNodeAt
  dsimp only
  rw [List.getElem?_eq_getElem h]
  dsimp only
  show getNodeIn l[i] [] = some (l.getD i default)
  rw [getNodeIn, List.getD_eq_getElem _ _ h]

theorem isSelected_clearSelection_getD (l : List Elem) (j : Nat)
    (h : j < l.length) :
    isSelected ((clearSelection l).getD j default) = false := by
  have hlen : j < (clearSelection l).length := by
    rw [length_clearSelection]
    exact h
  rw [List.getD_eq_getElem _ _ hlen]
  exact clearSelection_not_selected l _ (List.getElem_mem hlen)

theorem isSelected_updateNodeIn_cons (e : Elem) (x : Nat) (xs : List Nat)
    (f : Elem → Elem) :
    isSelected (updateNodeIn e (x :: xs) f) = isSelected e := by
  cases e with
  | node a k => rfl

theorem keyHandler_arrowDown_eq (c : Ctrl) (container : Rect)
    (rects : List Rect) :
    keyHandler c container rects Key.arrowDown =
      (if selectedIndexOf c.children < (c.children.length : Int) - 1
        then (setSelectedIndex c (selectedIndexOf c.children + 1), 1)
        else (c, 0)) := by
  unfold keyHandler computeNewIndex
  dsimp only
  by_cases h : selectedIndexOf c.children < (c.children.length : Int) - 1
  · rw [if_pos h, if_pos (by omega), if_pos h]
  · rw [if_neg h, if_neg (by omega), if_neg h]

theorem keyHandler_arrowRight_eq (c : Ctrl) (container : Rect)
    (rects : List Rect) :
    keyHandler c container rects Key.arrowRight =
      (if selectedIndexOf c.children < (c.children.length : Int) - 1
        then (setSelectedIndex c (selectedIndexOf c.children + 1), 1)
        else (c, 0)) := by
  unfold keyHandler computeNewIndex
  dsimp only
  by_cases h : selectedIndexOf c.children < (c.children.length : Int) - 1
  · rw [if_pos h, if_pos (by omega), if_pos h]
  · rw [if_neg h, if_neg (by omega), if_neg h]

theorem keyHandler_arrowUp_eq (c : Ctrl) (container : Rect)
    (rects : List Rect) :
    keyHandler c container rects Key.arrowUp =
      (if selectedIndexOf c.children > 0
        then (setSelectedIndex c (selectedIndexOf c.children - 1), 1)
        else (c, 0)) := by
  unfold keyHandler computeNewIndex
  dsimp only
  by_cases h : selectedIndexOf c.children > 0
  · rw [if_pos h, if_pos (by omega), if_pos h]
  · rw [if_neg h, if_neg (by omega), if_neg h]

theorem keyHandler_arrowLeft_eq (c : Ctrl) (container : Rect)
    (rects : List Rect) :
    keyHandler c container rects Key.arrowLeft =
      (if selectedIndexOf c.children > 0
        then (setSelectedIndex c (selectedIndexOf c.children - 1), 1)
        else (c, 0)) := by
  unfold keyHandler computeNewIndex
  dsimp only
  by_cases h : selectedIndexOf c.children > 0
  · rw [if_pos h, if_pos (by omega), if_pos h]
  · rw [if_neg h, if_neg (by omega), if_neg h]

theorem countSelected_exclusive (l : List Elem) (i : Nat) (f : Elem → Elem) :
    countSelected (modifyAt (clearSelection l) i f) ≤ 1 := by
  have h := countSelected_modifyAt_le (clearSelection l) i f
  rw [countSelected_clearSelection] at h
  exact h

theorem countSelected_setSelectedIndex (c : Ctrl) (v : Int) :
    countSelected (setSelectedIndex c v).children ≤ 1 := by
  unfold setSelectedIndex
  by_cases h : 0 ≤ v ∧ v < ((clearSelection c.children).length : Int)
  · rw [if_pos h]
    exact countSelected_exclusive c.children v.toNat addToSelection
  · rw [if_neg h]
    show countSelected (clearSelection c.children) ≤ 1
    rw [countSelected_clearSelection]
    omega

theorem countSelected_setSelectedChild (c : Ctrl) (r : ChildRef) :
    countSelected (setSelectedChild c r).children ≤ 1 := by
  unfold setSelectedChild
  cases r with
  | child i =>
    dsimp only
    by_cases h : i < (clearSelection c.children).length
    · rw [if_pos h]
      exact countSelected_exclusive c.children i addToSelection
    · rw [if_neg h]
      show countSelected (clearSelection c.children) ≤ 1
      rw [countSelected_clearSelection]
      omega
  | other =>
    show countSelected (clearSelection c.children) ≤ 1
    rw [countSelected_clearSelection]
    omega

theorem setSelectedChild_multiple (c : Ctrl) (r : ChildRef) :
    (setSelectedChild c r).multiple = c.multiple := by
  unfold setSelectedChild
  cases r with
  | child i =>
    dsimp only
    by_cases h : i < (clearSelection c.children).length
    · rw [if_pos h]
    · rw [if_neg h]
  | other => rfl

theorem applyOp_single_mode (c : Ctrl) (op : Op)
    (h0 : countSelected c.children ≤ 1) (hm : c.multiple = false) :
    countSelected (applyOp c op).children ≤ 1 ∧ (applyOp c op).multiple = false := by
  cases op with
  | setIndex v =>
    refine ⟨countSelected_setSelectedIndex c v, ?_⟩
    show (setSelectedIndex c v).multiple = false
    rw [setSelectedIndex_multiple]
    exact hm
  | setChild r =>
    refine ⟨countSelected_setSelectedChild c r, ?_⟩
    show (setSelectedChild c r).multiple = false
    rw [setSelectedChild_multiple]
    exact hm
  | keyPress container rects k =>
    show countSelected (keyHandler c container rects k).1.children ≤ 1 ∧
      (keyHandler c container rects k).1.multiple = false
    rcases keyHandler_shape c container rects k with h1 | ⟨n, h1⟩
    · rw [h1]
      exact ⟨h0, hm⟩
    · rw [h1]
      refine ⟨countSelected_setSelectedIndex c n, ?_⟩
      show (setSelectedIndex c n).multiple = false
      rw [setSelectedIndex_multiple]
      exact hm
  | press p s d =>
    show countSelected (handlePointerDown c p s d).ctrl.children ≤ 1 ∧
      (handlePointerDown c p s d).ctrl.multiple = false
    rcases handlePointerDown_shape c p s d with h1 | ⟨i, rest, -, hmul, hcase⟩
    · rw [h1]
      exact ⟨h0, hm⟩
    · rcases hcase with ⟨hms, -⟩ | ⟨-, h2⟩
      · rw [hm] at hms
        simp at hms
      · rw [h2, hmul]
        exact ⟨countSelected_exclusive c.children i _, hm⟩

/-! ### Claim theorems -/

/-- C1: With a selected item at index `s` of a non-empty child list,
`#getNextNonvisibleChildIndex` scans indices after `s` in increasing order
and returns the first whose rectangle is not fully contained (inclusive
bounds) in the forward-shifted page window, or `length - 1` if every later
child is contained; `#getPreviousNonvisibleChildIndex` scans in decreasing
order against the backward-shifted window, returning `0` if every earlier
child is contained; both return `-1` when `selectedIndex` is `-1`. -/
theorem C1_page_boundary_scans (container : Rect) (rects : List Rect)
    (s : Nat) (hs : s < rects.length) :
    (∀ c, s < c → c < rects.length →
      rectContains (forwardWindow container (rects.getD s default))
        (rects.getD c default) = false →
      (∀ u, s < u → u < c →
        rectContains (forwardWindow container (rects.getD s default))
          (rects.getD u default) = true) →
      getNextNonvisibleChildIndex container rects (s : Int) = (c : Int)) ∧
    ((∀ u, s < u → u < rects.length →
      rectContains (forwardWindow container (rects.getD s default))
        (rects.getD u default) = true) →
      getNextNonvisibleChildIndex container rects (s : Int)
        = (rects.length : Int) - 1) ∧
    (∀ c, c < s →
      rectContains (backwardWindow container (rects.getD s default))
        (rects.getD c default) = false →
      (∀ u, c < u → u < s →
        rectContains (backwardWindow container (rects.getD s default))
          (rects.getD u default) = true) →
      getPreviousNonvisibleChildIndex container rects (s : Int) = (c : Int)) ∧
    ((∀ u, u < s →
      rectContains (backwardWindow container (rects.getD s default))
        (rects.getD u default) = true) →
      getPreviousNonvisibleChildIndex container rects (s : Int) = 0) ∧
    getNextNonvisibleChildIndex container rects (-1) = -1 ∧
    getPreviousNonvisibleChildIndex container rects (-1) = -1 := by
  have hnot : ¬((s : Int) = -1) := by omega
  have htn : (s : Int).toNat = s := Int.toNat_natCast s
  have hget : rects[(s : Int).toNat]? = some (rects.getD s default) := by
    rw [htn, List.getElem?_eq_getElem hs, List.getD_eq_getElem _ _ hs]
  refine ⟨?_, ?_, ?_, ?_, ?_, ?_⟩
  · intro c hc1 hc2 hesc hmin
    unfold getNextNonvisibleChildIndex
    rw [if_neg hnot, hget]
    dsimp only
    rw [htn, scanUpFrom_eq_some _ rects.length c hc2 (by rw [hesc]; rfl) (c - (s + 1))
      (s + 1) rfl (by omega) (fun u hu1 hu2 => by rw [hmin u (by omega) hu2]; rfl)]
  · intro hall
    unfold getNextNonvisibleChildIndex
    rw [if_neg hnot, hget]
    dsimp only
    rw [htn, scanUpFrom_eq_none _ rects.length (rects.length - (s + 1)) (s + 1) rfl
      (fun u hu1 hu2 => by rw [hall u (by omega) hu2]; rfl)]
  · intro c hc1 hesc hmin
    unfold getPreviousNonvisibleChildIndex
    rw [if_neg hnot, hget]
    dsimp only
    rw [htn, scanDownFrom_eq_some _ c (by rw [hesc]; rfl) s hc1
      (fun u hu1 hu2 => by rw [hmin u hu1 hu2]; rfl)]
  · intro hall
    unfold getPreviousNonvisibleChildIndex
    rw [if_neg hnot, hget]
    dsimp only
    rw [htn, scanDownFrom_eq_none _ s
      (fun u hu => by rw [hall u hu]; rfl)]
  · unfold getNextNonvisibleChildIndex
    rw [if_pos rfl]
  · unfold getPreviousNonvisibleChildIndex
    rw [if_pos rfl]

/-- C1 witness: the spec's concrete configuration — container
`[0,0]-[100,100]`, selected item `[10,10]-[20,20]` at index 0, candidates
`[30,30]-[40,40]` (index 1, inside the shifted window) and
`[150,150]-[160,160]` (index 2, outside) — where the next page boundary is
index 2, and the `-1` cases. -/
theorem C1_page_boundary_scans_witness :
    (0 : Nat) < 3 ∧
    getNextNonvisibleChildIndex ⟨0, 0, 100, 100⟩
      [⟨10, 10, 20, 20⟩, ⟨30, 30, 40, 40⟩, ⟨150, 150, 160, 160⟩] 0 = 2 ∧
    getNextNonvisibleChildIndex ⟨0, 0, 100, 100⟩
      [⟨10, 10, 20, 20⟩, ⟨30, 30, 40, 40⟩, ⟨150, 150, 160, 160⟩] (-1) = -1 ∧
    getPreviousNonvisibleChildIndex ⟨0, 0, 100, 100⟩
      [⟨10, 10, 20, 20⟩, ⟨30, 30, 40, 40⟩, ⟨150, 150, 160, 160⟩] (-1) = -1 := by
  have h := C1_page_boundary_scans ⟨0, 0, 100, 100⟩
    [⟨10, 10, 20, 20⟩, ⟨30, 30, 40, 40⟩, ⟨150, 150, 160, 160⟩] 0 (by decide)
  refine ⟨by decide, ?_, h.2.2.2.2.1, h.2.2.2.2.2⟩
  exact h.1 2 (by decide) (by decide) (by decide)
    (fun u hu1 hu2 => by interval_cases u <;> decide)

/-- C2 counterexample: a control whose only child is selected; assigning a
non-child value (`null`, a foreign element, a grandchild, ...) to
`selectedChild` does not leave the selection unchanged — it empties it. -/
theorem C2_counterexample :
    selectedIndexOf [Elem.node [selectedAttributeName] []] = 0 ∧
    selectedIndexOf (setSelectedChild
      ⟨[Elem.node [selectedAttributeName] []], false⟩ ChildRef.other).children
      = -1 := by
  exact ⟨rfl, rfl⟩

/-- C2 amended: assigning a value that is not a direct child to the
`selectedChild` property clears the whole selection (the setter clears
first and only re-selects when it finds the assigned value among the
children); the mode flag is untouched. -/
theorem C2_amended_nonchild_assignment_clears (c : Ctrl) :
    (setSelectedChild c ChildRef.other).children = clearSelection c.children ∧
    selectedIndexOf (setSelectedChild c ChildRef.other).children = -1 ∧
    (setSelectedChild c ChildRef.other).multiple = c.multiple := by
  refine ⟨rfl, ?_, rfl⟩
  show selectedIndexOf (clearSelection c.children) = -1
  exact selectedIndexOf_clearSelection c.children

/-- C3 counterexample: both children selected (multi-selection residue);
pressing child 0 without the additive modifier is a complete no-op — child 1
stays selected and no notification fires — although child 0 was selected but
not the sole selection. -/
theorem C3_counterexample :
    isSelected ((Elem.node [selectedAttributeName] [] : Elem)) = true ∧
    (handlePointerDown
      ⟨[Elem.node [selectedAttributeName] [], Elem.node [selectedAttributeName] []], true⟩
      [0] false false).notifications = 0 ∧
    (handlePointerDown
      ⟨[Elem.node [selectedAttributeName] [], Elem.node [selectedAttributeName] []], true⟩
      [0] false false).ctrl.children
      = [Elem.node [selectedAttributeName] [], Elem.node [selectedAttributeName] []] := by
  exact ⟨rfl, rfl, rfl⟩

/-- C3 amended: a non-additive press on a direct child that is selected —
whether or not it is the sole selection — changes nothing and emits no
notification; a press on an unselected child clears the selection, selects
exactly the pressed child, and emits one notification. -/
theorem C3_amended_nonadditive_press (c : Ctrl) (i : Nat)
    (h : i < c.children.length) :
    (isSelected (c.children.getD i default) = true →
      handlePointerDown c [i] false false = ⟨c, 0⟩) ∧
    (isSelected (c.children.getD i default) = false →
      (handlePointerDown c [i] false false).notifications = 1 ∧
      (handlePointerDown c [i] false false).ctrl.multiple = c.multiple ∧
      (handlePointerDown c [i] false false).ctrl.children.length
        = c.children.length ∧
      ∀ j, j < c.children.length →
        isSelected ((handlePointerDown c [i] false false).ctrl.children.getD j default)
          = decide (j = i)) := by
  have hres : resolveTargetPath [i] = [i] := by
    rw [resolveTargetPath, if_neg (by simp)]
  have hunf : handlePointerDown c [i] false false =
      (if isSelected (c.children.getD i default) = true then (⟨c, 0⟩ : PressResult)
       else PressResult.mk { c with children := modifyAt (clearSelection c.children) i addToSelection } 1) := by
    unfold handlePointerDown
    rw [if_neg (show ¬([i] = ([] : List Nat)) by simp), hres]
    dsimp only
    rw [if_neg (show ¬((false : Bool) = true) by simp),
      getNodeAt_singleton c.children i h]
    dsimp only
    rw [if_neg (show ¬((c.multiple && false) = true) by simp)]
    by_cases hsel : isSelected (c.children.getD i default) = true
    · rw [if_pos hsel, if_pos hsel]
    · rw [if_neg hsel, if_neg hsel]
      rfl
  constructor
  · intro hsel
    rw [hunf, if_pos hsel]
  · intro hsel
    rw [hunf, if_neg (by rw [hsel]; simp)]
    have hlen : (modifyAt (clearSelection c.children) i addToSelection).length
        = c.children.length := by
      rw [length_modifyAt, length_clearSelection]
    refine ⟨rfl, rfl, hlen, ?_⟩
    intro j hj
    by_cases hji : j = i
    · subst hji
      rw [getD_modifyAt_eq _ _ _ _ (by rw [length_clearSelection]; exact h),
        isSelected_addToSelection]
      simp
    · rw [getD_modifyAt_ne _ _ _ _ _ hji, isSelected_clearSelection_getD _ _ hj]
      simp [hji]

/-- C3 witness: pressing the unselected child 1 of a two-child control
selects it and fires one notification. -/
theorem C3_amended_nonadditive_press_witness :
    (handlePointerDown ⟨[Elem.node [] [], Elem.node [] []], false⟩
      [1] false false).notifications = 1 := by
  have h := C3_amended_nonadditive_press
    ⟨[Elem.node [] [], Elem.node [] []], false⟩ 1 (by decide)
  exact (h.2 (by decide)).1

/-- C4 counterexample: the control's single child has a child which has a
child; a press on that depth-3 descendant is not resolved to the direct
child — the handler notifies once, the direct child is left unselected, and
the selection marker is placed on the grandchild at path `[0, 0]`, a
non-direct child. -/
theorem C4_counterexample :
    (handlePointerDown ⟨[Elem.node [] [Elem.node [] [Elem.node [] []]]], false⟩
      [0, 0, 0] false false).notifications = 1 ∧
    isSelected ((handlePointerDown
      ⟨[Elem.node [] [Elem.node [] [Elem.node [] []]]], false⟩
      [0, 0, 0] false false).ctrl.children.getD 0 default) = false ∧
    (getNodeAt (handlePointerDown
      ⟨[Elem.node [] [Elem.node [] [Elem.node [] []]]], false⟩
      [0, 0, 0] false false).ctrl.children [0, 0]).map isSelected
      = some true := by
  exact ⟨rfl, rfl, rfl⟩

/-- C4 amended: the handler resolves the press target exactly one level: a
press on the container itself is ignored; a press on an immediate child of a
direct child acts on that direct child; but a press on a deeper descendant
acts on the target's parent element — which is not a direct child — so in
the exclusive branch the notification fires while the marker lands outside
the direct children, leaving no direct child selected. -/
theorem C4_amended_one_level_resolution (c : Ctrl) (i j k : Nat)
    (rest : List Nat) (s d : Bool) :
    (handlePointerDown c [] s d = ⟨c, 0⟩) ∧
    (handlePointerDown c [i, j] s d = handlePointerDown c [i] s d) ∧
    ((c.multiple && s) = false → d = false →
      ∀ t, getNodeAt c.children (i :: j :: (k :: rest).dropLast) = some t →
        isSelected t = false →
        (handlePointerDown c (i :: j :: k :: rest) s d).notifications = 1 ∧
        ∀ m, m < c.children.length →
          isSelected ((handlePointerDown c (i :: j :: k :: rest) s d).ctrl.children.getD m default)
            = false) := by
  refine ⟨rfl, ?_, ?_⟩
  · unfold handlePointerDown
    rw [if_neg (show ¬([i, j] = ([] : List Nat)) by simp),
      if_neg (show ¬([i] = ([] : List Nat)) by simp),
      show resolveTargetPath [i, j] = [i] by
        rw [resolveTargetPath, if_pos (by simp)]
        rfl,
      show resolveTargetPath [i] = [i] by rw [resolveTargetPath, if_neg (by simp)]]
  · intro hms hd t hget hsel
    subst hd
    have hres : resolveTargetPath (i :: j :: k :: rest)
        = i :: j :: (k :: rest).dropLast := by
      rw [resolveTargetPath, if_pos (by simp)]
      rfl
    have hunf : handlePointerDown c (i :: j :: k :: rest) s false =
        PressResult.mk (Ctrl.mk (modifyAt (clearSelection c.children) i
          (fun e => updateNodeIn e (j :: (k :: rest).dropLast) addToSelection)) c.multiple) 1 := by
      unfold handlePointerDown
      rw [if_neg (show ¬(i :: j :: k :: rest = ([] : List Nat)) by simp), hres]
      dsimp only
      rw [if_neg (show ¬((false : Bool) = true) by simp), hget]
      dsimp only
      rw [if_neg (show ¬((c.multiple && s) = true) by rw [hms]; simp),
        if_neg (show ¬(isSelected t = true) by rw [hsel]; simp)]
      rfl
    rw [hunf]
    refine ⟨rfl, ?_⟩
    intro m hm
    by_cases hmi : m = i
    · subst hmi
      rw [getD_modifyAt_eq _ _ _ _ (by rw [length_clearSelection]; exact hm),
        isSelected_updateNodeIn_cons, isSelected_clearSelection_getD _ _ hm]
    · rw [getD_modifyAt_ne _ _ _ _ _ hmi, isSelected_clearSelection_getD _ _ hm]

/-- C4 witness: a concrete depth-3 press that notifies although no direct
child ends up selected. -/
theorem C4_amended_one_level_resolution_witness :
    (handlePointerDown ⟨[Elem.node [] [Elem.node [] [Elem.node [] []]]], true⟩
      [0, 0, 0] false false).notifications = 1 := by
  have h := C4_amended_one_level_resolution
    ⟨[Elem.node [] [Elem.node [] [Elem.node [] []]]], true⟩ 0 0 0 [] false false
  exact (h.2.2 (by decide) rfl (Elem.node [] [Elem.node [] []]) (by rfl) (by rfl)).1

/-- C5 counterexample: pressing Home on a focused control with zero children
leaves the selection state exactly as it was (still empty) yet dispatches
one `change` and one `input` event — the computed target `0` differs from
the current `selectedIndex` `-1`, so the handler notifies even though the
out-of-range assignment changed nothing. -/
theorem C5_counterexample :
    (keyHandler ⟨[], false⟩ ⟨0, 0, 0, 0⟩ [] Key.home).1 = ⟨[], false⟩ ∧
    (keyHandler ⟨[], false⟩ ⟨0, 0, 0, 0⟩ [] Key.home).2 = 1 := by
  exact ⟨rfl, rfl⟩

/-- C5 amended: if a keyboard or pointer event dispatches no notification
then the state is exactly unchanged, and the `selectedIndex` /
`selectedChild` property setters never dispatch `change` or `input` events;
however a notification may fire even when the state did not change (the
out-of-range keyboard target of the counterexample). -/
theorem C5_amended_no_silent_changes (c : Ctrl) (container : Rect)
    (rects : List Rect) (k : Key) (p : List Nat) (s d : Bool) (v : Int)
    (r : ChildRef) :
    ((keyHandler c container rects k).2 = 0 →
      (keyHandler c container rects k).1 = c) ∧
    ((handlePointerDown c p s d).notifications = 0 →
      (handlePointerDown c p s d).ctrl = c) ∧
    (setSelectedIndexE c v).2 = 0 ∧
    (setSelectedChildE c r).2 = 0 := by
  exact ⟨keyHandler_of_zero c container rects k,
    handlePointerDown_of_zero c p s d, rfl, rfl⟩

/-- C5 witness: an unclaimed key on a one-child control dispatches nothing
and changes nothing. -/
theorem C5_amended_no_silent_changes_witness :
    (keyHandler ⟨[Elem.node [] []], false⟩ ⟨0, 0, 0, 0⟩ [] Key.other).1
      = ⟨[Elem.node [] []], false⟩ := by
  have h := C5_amended_no_silent_changes ⟨[Elem.node [] []], false⟩
    ⟨0, 0, 0, 0⟩ [] Key.other [] false false 0 ChildRef.other
  exact h.1 rfl

/-- C6 counterexample: with one child and nothing selected
(`selectedIndex = -1`), ArrowUp is a complete no-op with no events, whereas
the claimed target `selectedIndex - 1` clamped to not go below `0` is `0` —
assigning that clamped value would select index 0. -/
theorem C6_counterexample :
    keyHandler ⟨[Elem.node [] []], false⟩ ⟨0, 0, 0, 0⟩ [] Key.arrowUp
      = (⟨[Elem.node [] []], false⟩, 0) ∧
    selectedIndexOf [Elem.node [] []] = -1 ∧
    selectedIndexOf ((setSelectedIndex ⟨[Elem.node [] []], false⟩
      (max (selectedIndexOf [Elem.node [] []] - 1) 0)).children) = 0 := by
  refine ⟨rfl, rfl, ?_⟩
  rw [show max (selectedIndexOf [Elem.node [] []] - 1) 0 = 0 by
    rw [show selectedIndexOf [Elem.node [] []] = -1 from rfl]
    omega]
  rfl

/-- C6 amended: with a selection present, ArrowRight/ArrowDown move the
selection to `min (selectedIndex + 1) (length - 1)` and ArrowLeft/ArrowUp
to `max (selectedIndex - 1) 0`; ArrowDown with nothing selected on a
non-empty control selects index 0 exactly once with one notification (one
`change` and one `input`); ArrowDown at the last index is a no-op with no
notification; but ArrowLeft/ArrowUp with nothing selected (`-1`) stay at
`-1` rather than clamping to 0 — the decrement happens only when
`selectedIndex > 0`. -/
theorem C6_amended_arrow_keys (c : Ctrl) (container : Rect)
    (rects : List Rect) :
    (0 ≤ selectedIndexOf c.children →
      selectedIndexOf ((keyHandler c container rects Key.arrowDown).1.children)
        = min (selectedIndexOf c.children + 1) ((c.children.length : Int) - 1) ∧
      selectedIndexOf ((keyHandler c container rects Key.arrowRight).1.children)
        = min (selectedIndexOf c.children + 1) ((c.children.length : Int) - 1) ∧
      selectedIndexOf ((keyHandler c container rects Key.arrowUp).1.children)
        = max (selectedIndexOf c.children - 1) 0 ∧
      selectedIndexOf ((keyHandler c container rects Key.arrowLeft).1.children)
        = max (selectedIndexOf c.children - 1) 0) ∧
    (selectedIndexOf c.children = -1 → 0 < c.children.length →
      keyHandler c container rects Key.arrowDown = (setSelectedIndex c 0, 1) ∧
      selectedIndexOf ((keyHandler c container rects Key.arrowDown).1.children)
        = 0) ∧
    (selectedIndexOf c.children = (c.children.length : Int) - 1 →
      keyHandler c container rects Key.arrowDown = (c, 0)) ∧
    (selectedIndexOf c.children ≤ 0 →
      keyHandler c container rects Key.arrowUp = (c, 0) ∧
      keyHandler c container rects Key.arrowLeft = (c, 0)) := by
  refine ⟨?_, ?_, ?_, ?_⟩
  · intro h0
    have hlt : selectedIndexOf c.children < (c.children.length : Int) :=
      selectedIndexOf_lt_of_nonneg c.children h0
    refine ⟨?_, ?_, ?_, ?_⟩
    · by_cases hc : selectedIndexOf c.children < (c.children.length : Int) - 1
      · rw [keyHandler_arrowDown_eq, if_pos hc]
        dsimp only
        rw [setSelectedIndex_selectedIndexOf c _ (by omega) (by omega)]
        omega
      · rw [keyHandler_arrowDown_eq, if_neg hc]
        dsimp only
        omega
    · by_cases hc : selectedIndexOf c.children < (c.children.length : Int) - 1
      · rw [keyHandler_arrowRight_eq, if_pos hc]
        dsimp only
        rw [setSelectedIndex_selectedIndexOf c _ (by omega) (by omega)]
        omega
      · rw [keyHandler_arrowRight_eq, if_neg hc]
        dsimp only
        omega
    · by_cases hc : selectedIndexOf c.children > 0
      · rw [keyHandler_arrowUp_eq, if_pos hc]
        dsimp only
        rw [setSelectedIndex_selectedIndexOf c _ (by omega) (by omega)]
        omega
      · rw [keyHandler_arrowUp_eq, if_neg hc]
        dsimp only
        omega
    · by_cases hc : selectedIndexOf c.children > 0
      · rw [keyHandler_arrowLeft_eq, if_pos hc]
        dsimp only
        rw [setSelectedIndex_selectedIndexOf c _ (by omega) (by omega)]
        omega
      · rw [keyHandler_arrowLeft_eq, if_neg hc]
        dsimp only
        omega
  · intro hcur hlen
    have hc : selectedIndexOf c.children < (c.children.length : Int) - 1 := by
      omega
    have h0 : selectedIndexOf c.children + 1 = 0 := by omega
    rw [keyHandler_arrowDown_eq, if_pos hc, h0]
    refine ⟨rfl, ?_⟩
    dsimp only
    rw [setSelectedIndex_selectedIndexOf c 0 (by omega) (by omega)]
  · intro hcur
    rw [keyHandler_arrowDown_eq, if_neg (by omega)]
  · intro hcur
    rw [keyHandler_arrowUp_eq, if_neg (by omega),
      keyHandler_arrowLeft_eq, if_neg (by omega)]
    exact ⟨rfl, rfl⟩

/-- C6 witness: ArrowDown from selected index 0 of a two-child control moves
the selection to index 1. -/
theorem C6_amended_arrow_keys_witness :
    selectedIndexOf ((keyHandler
      ⟨[Elem.node [selectedAttributeName] [], Elem.node [] []], false⟩
      ⟨0, 0, 0, 0⟩ [] Key.arrowDown).1.children) = 1 := by
  have h := C6_amended_arrow_keys
    ⟨[Elem.node [selectedAttributeName] [], Elem.node [] []], false⟩
    ⟨0, 0, 0, 0⟩ []
  have h2 := (h.1 (by decide)).1
  have hsel : selectedIndexOf (Ctrl.mk
      [Elem.node [selectedAttributeName] [], Elem.node [] []] false).children
      = 0 := rfl
  have hlen : (Ctrl.mk
      [Elem.node [selectedAttributeName] [], Elem.node [] []] false).children.length
      = 2 := rfl
  rw [h2, hsel, hlen]
  omega

/-- C7: removing the `multiple` attribute re-normalizes the selection: with
no item selected the children are untouched; with a selection, the item at
the lowest selected index (it was selected, and every lower index was not)
is the only one selected afterwards, the child count is unchanged, and the
mode flag ends up false. -/
theorem C7_multi_to_single_normalization (c : Ctrl) :
    (selectedIndexOf c.children = -1 →
      (setMultipleAttr c false).children = c.children) ∧
    (0 ≤ selectedIndexOf c.children →
      isSelected (c.children.getD (selectedIndexOf c.children).toNat default)
        = true ∧
      (∀ j, j < (selectedIndexOf c.children).toNat →
        isSelected (c.children.getD j default) = false) ∧
      (setMultipleAttr c false).children.length = c.children.length ∧
      ∀ j, j < c.children.length →
        isSelected ((setMultipleAttr c false).children.getD j default)
          = decide (j = (selectedIndexOf c.children).toNat)) ∧
    (setMultipleAttr c false).multiple = false := by
  refine ⟨?_, ?_, ?_⟩
  · intro hsi
    unfold setMultipleAttr
    rw [if_pos rfl, if_neg (by omega)]
  · intro h0
    have hfs : firstSelected c.children = some (selectedIndexOf c.children).toNat := by
      cases hc : firstSelected c.children with
      | none =>
        unfold selectedIndexOf at h0
        rw [hc] at h0
        simp at h0
      | some n =>
        unfold selectedIndexOf
        rw [hc]
        simp
    have hlt : (selectedIndexOf c.children).toNat < c.children.length :=
      firstSelected_lt c.children _ hfs
    obtain ⟨hsel, hlow⟩ := firstSelected_sel c.children _ default hfs
    have hch : (setMultipleAttr c false).children
        = modifyAt (clearSelection c.children)
          (selectedIndexOf c.children).toNat addToSelection := by
      unfold setMultipleAttr
      rw [if_pos rfl, if_pos (by omega)]
    refine ⟨hsel, hlow, ?_, ?_⟩
    · rw [hch, length_modifyAt, length_clearSelection]
    · intro j hj
      rw [hch]
      by_cases hji : j = (selectedIndexOf c.children).toNat
      · subst hji
        rw [getD_modifyAt_eq _ _ _ _ (by rw [length_clearSelection]; exact hj),
          isSelected_addToSelection]
        simp
      · rw [getD_modifyAt_ne _ _ _ _ _ hji,
          isSelected_clearSelection_getD _ _ hj]
        simp [hji]
  · unfold setMultipleAttr
    rw [if_pos rfl]
    by_cases hsi : selectedIndexOf c.children > -1
    · rw [if_pos hsi]
    · rw [if_neg hsi]

/-- C7 witness: from selected indices `{1, 3, 4}` of a five-child control,
removing `multiple` keeps exactly index 1 selected. -/
theorem C7_multi_to_single_normalization_witness :
    isSelected ((setMultipleAttr (Ctrl.mk
      [Elem.node [] [], Elem.node [selectedAttributeName] [], Elem.node [] [],
        Elem.node [selectedAttributeName] [], Elem.node [selectedAttributeName] []]
      true) false).children.getD 1 default) = true ∧
    isSelected ((setMultipleAttr (Ctrl.mk
      [Elem.node [] [], Elem.node [selectedAttributeName] [], Elem.node [] [],
        Elem.node [selectedAttributeName] [], Elem.node [selectedAttributeName] []]
      true) false).children.getD 3 default) = false := by
  have h := C7_multi_to_single_normalization (Ctrl.mk
    [Elem.node [] [], Elem.node [selectedAttributeName] [], Elem.node [] [],
      Elem.node [selectedAttributeName] [], Elem.node [selectedAttributeName] []]
    true)
  have h1 := (h.2.1 (by decide)).2.2.2 1 (by decide)
  have h3 := (h.2.1 (by decide)).2.2.2 3 (by decide)
  rw [h1, h3]
  constructor
  · rfl
  · rfl

/-- C8: in multi-selection mode, a press with the additive (shift) modifier
on the direct child at index `i` toggles exactly that child's selection,
leaves every other child's selection status unchanged, keeps the child
count, and emits exactly one notification. -/
theorem C8_additive_toggle (c : Ctrl) (i : Nat) (h : i < c.children.length)
    (hm : c.multiple = true) :
    (handlePointerDown c [i] true false).notifications = 1 ∧
    (handlePointerDown c [i] true false).ctrl.children.length
      = c.children.length ∧
    isSelected ((handlePointerDown c [i] true false).ctrl.children.getD i default)
      = !(isSelected (c.children.getD i default)) ∧
    ∀ j, j < c.children.length → j ≠ i →
      isSelected ((handlePointerDown c [i] true false).ctrl.children.getD j default)
        = isSelected (c.children.getD j default) := by
  have hres : resolveTargetPath [i] = [i] := by
    rw [resolveTargetPath, if_neg (by simp)]
  have hunf : handlePointerDown c [i] true false =
      (if isSelected (c.children.getD i default) = true
       then PressResult.mk (Ctrl.mk (modifyAt c.children i removeFromSelection) c.multiple) 1
       else PressResult.mk (Ctrl.mk (modifyAt c.children i addToSelection) c.multiple) 1) := by
    unfold handlePointerDown
    rw [if_neg (show ¬([i] = ([] : List Nat)) by simp), hres]
    dsimp only
    rw [if_neg (show ¬((false : Bool) = true) by simp),
      getNodeAt_singleton c.children i h]
    dsimp only
    rw [if_pos (show (c.multiple && true) = true by
      rw [hm]
      rfl)]
    by_cases hsel : isSelected (c.children.getD i default) = true
    · rw [if_pos hsel, if_pos hsel]
      rfl
    · rw [if_neg hsel, if_neg hsel]
      rfl
  by_cases hsel : isSelected (c.children.getD i default) = true
  · rw [hunf, if_pos hsel]
    refine ⟨rfl, length_modifyAt _ _ _, ?_, ?_⟩
    · rw [getD_modifyAt_eq _ _ _ _ h, isSelected_removeFromSelection, hsel]
      rfl
    · intro j hj hji
      show isSelected ((modifyAt c.children i removeFromSelection).getD j default)
          = isSelected (c.children.getD j default)
      rw [getD_modifyAt_ne _ _ _ _ _ hji]
  · rw [hunf, if_neg hsel]
    refine ⟨rfl, length_modifyAt _ _ _, ?_, ?_⟩
    · rw [getD_modifyAt_eq _ _ _ _ h, isSelected_addToSelection,
        Bool.eq_false_iff.mpr hsel]
      rfl
    · intro j hj hji
      show isSelected ((modifyAt c.children i addToSelection).getD j default)
          = isSelected (c.children.getD j default)
      rw [getD_modifyAt_ne _ _ _ _ _ hji]

/-- C8 witness: shift-pressing unselected child 0 selects it additively —
child 1's selection survives — with one notification. -/
theorem C8_additive_toggle_witness :
    (handlePointerDown
      (Ctrl.mk [Elem.node [] [], Elem.node [selectedAttributeName] []] true)
      [0] true false).notifications = 1 ∧
    isSelected ((handlePointerDown
      (Ctrl.mk [Elem.node [] [], Elem.node [selectedAttributeName] []] true)
      [0] true false).ctrl.children.getD 1 default) = true := by
  have h := C8_additive_toggle
    (Ctrl.mk [Elem.node [] [], Elem.node [selectedAttributeName] []] true)
    0 (by decide) rfl
  have h1 := h.2.2.2 1 (by decide) (by decide)
  rw [h1]
  exact ⟨h.1, rfl⟩

/-- C9: with multi-selection mode disabled, "at most one direct child is
selected" is an invariant of every sequence of selection operations
(`selectedIndex` assignment, `selectedChild` assignment, keyboard handling,
pointer presses); it holds after the whole sequence, hence — since this is
quantified over all sequences — after each step of any sequence. -/
theorem C9_single_mode_at_most_one (c : Ctrl) (ops : List Op)
    (h0 : countSelected c.children ≤ 1) (hm : c.multiple = false) :
    countSelected (runOps c ops).children ≤ 1 ∧
    (runOps c ops).multiple = false := by
  induction ops generalizing c with
  | nil => exact ⟨h0, hm⟩
  | cons op rest ih =>
    have hstep := applyOp_single_mode c op h0 hm
    have hrun : runOps c (op :: rest) = runOps (applyOp c op) rest := rfl
    rw [hrun]
    exact ih (applyOp c op) hstep.1 hstep.2

/-- C9 witness: a concrete three-operation sequence in single mode keeps at
most one child selected. -/
theorem C9_single_mode_at_most_one_witness :
    countSelected (runOps (Ctrl.mk [Elem.node [] [], Elem.node [] []] false)
      [Op.setIndex 0, Op.press [1] false false,
        Op.keyPress ⟨0, 0, 0, 0⟩ [] Key.arrowRight]).children ≤ 1 := by
  exact (C9_single_mode_at_most_one
    (Ctrl.mk [Elem.node [] [], Elem.node [] []] false)
    [Op.setIndex 0, Op.press [1] false false,
      Op.keyPress ⟨0, 0, 0, 0⟩ [] Key.arrowRight]
    (by decide) rfl).1

/-- C10: every selection operation — the two property setters, the keyboard
handler, the pointer handler, and the mode-change normalization — leaves the
children identical once the selection marker is erased everywhere: no child
is added, removed or reordered, no other attribute changes, no subtree
changes, and the child count is preserved. -/
theorem C10_operations_only_touch_marker (c : Ctrl) (op : Op) (b : Bool) :
    stripMarkerL (applyOp c op).children = stripMarkerL c.children ∧
    (applyOp c op).children.length = c.children.length ∧
    stripMarkerL (setMultipleAttr c b).children = stripMarkerL c.children ∧
    (setMultipleAttr c b).children.length = c.children.length := by
  refine ⟨stripMarkerL_applyOp c op, ?_, stripMarkerL_setMultipleAttr c b, ?_⟩
  · have h := congrArg List.length (stripMarkerL_applyOp c op)
    rwa [length_stripMarkerL, length_stripMarkerL] at h
  · have h := congrArg List.length (stripMarkerL_setMultipleAttr c b)
    rwa [length_stripMarkerL, length_stripMarkerL] at h

end SelectionElement
